import Mathlib

/-!
Verification of the gene-graph-conv model layer code.

The development shallowly embeds the numeric content of
`src/models/model_layers.py` and (where the claims cite it) the legacy
`src/models.py`.  Tensors are total functions over `Fin`-indexed
dimensions with rational entries; exact arithmetic over `ℚ` stands in
for floating point.  The two transcendental primitives appearing in the
code, `torch.exp` and NumPy's `x ** -0.5`, are not rational-valued, so
they are abstracted: `torch.exp` becomes an arbitrary function
`expf : ℚ → ℚ` together with the positivity hypothesis `∀ q, 0 < expf q`
that the real exponential satisfies, and the inverse square roots of the
degree vector become an arbitrary vector `r` satisfying
`0 < r i ∧ r i ^ 2 * degrees A i = 1`, which is exactly the defining
property of `(degrees A i) ** (-0.5)`.
-/

namespace ModelLayers

/-- Square rational matrices, the embedding of dense 2-d NumPy arrays /
torch tensors of shape `(n, n)`. -/
abbrev Mat (n : ℕ) := Fin n → Fin n → ℚ

/-- 3-d feature tensors of shape `(nb_examples, nb_nodes, nb_channels)`. -/
abbrev Tens (e nn c : ℕ) := Fin e → Fin nn → Fin c → ℚ

/-- The epsilon `1e-5` added to the degree vector in
`SparseLogisticRegression.__init__` (`D = adj.sum(0) + 1e-5`). -/
def eps : ℚ := 1 / 100000

/-- Effect of `np.fill_diagonal(adj, 0.)` (model_layers.py line 115): the
diagonal of the caller's array is set to `0`, all other entries are kept. -/
def zeroDiag {n : ℕ} (A : Mat n) : Mat n :=
  fun i j => if i = j then 0 else A i j

/-- The epsilon-perturbed degree vector `D = adj.sum(0) + 1e-5` computed by
`SparseLogisticRegression.__init__` after the diagonal has been zeroed.
`adj.sum(0)` sums over axis 0, i.e. `D[i] = Σ_j adj[j, i]`. -/
def degrees {n : ℕ} (A : Mat n) (i : Fin n) : ℚ :=
  (∑ j, zeroDiag A j i) + eps

/-- The matrix `np.eye(n) - diag(D ** -0.5) . adj . diag(D ** -0.5)` built in
`SparseLogisticRegression.__init__`, with `r` standing for the vector
`D ** -0.5` (see the module docstring for how the square root is handled). -/
def slrLaplacian {n : ℕ} (A : Mat n) (r : Fin n → ℚ) : Mat n :=
  fun i j => (if i = j then 1 else 0) - r i * zeroDiag A i j * r j

/-- State produced by `SparseLogisticRegression.__init__` that the claims
reason about: `adjArg` is the caller's adjacency array after the constructor
has run (`np.fill_diagonal(adj, 0.)` mutates the argument in place and the
remaining lines only read it), and `laplacian` is the cached
`self.laplacian` tensor.  `r` stands for the vector `D ** -0.5`. -/
structure SLRState (n : ℕ) where
  adjArg : Mat n
  laplacian : Mat n

/-- `SparseLogisticRegression.__init__` (model_layers.py lines 109-128) as a
state transformer on the adjacency argument. -/
def SparseLogisticRegression.init {n : ℕ} (A : Mat n) (r : Fin n → ℚ) : SLRState n :=
  ⟨zeroDiag A, slrLaplacian A r⟩

/-- The NumPy power `x ** (-0.5)` evaluates to a finite real number exactly
when its argument is strictly positive: `0 ** -0.5` is `inf` and a negative
argument gives `nan`.  This predicate classifies the arguments on which the
degree normalization stays NaN- and Inf-free; once every `D[i] ** -0.5` is a
finite real, each entry `r i * A i j * r j` of
`diag(D ** -0.5) . adj . diag(D ** -0.5)` is a finite product of finite
reals, so the transformed matrix has no NaN and no Inf entry. -/
def rsqrtArgOK (x : ℚ) : Prop := 0 < x

/-- The Laplacian smoothness penalty `sum((|W| . L) * |W|)`, the value of
`(torch.abs(weight).mm(laplacian) * torch.abs(weight)).sum()` in
`SparseLogisticRegression.regularization` (model_layers.py lines 140-141).
`W` is the `(out_dim, nb_nodes * input_dim)` weight of the logistic layer
(the matrix product requires `input_dim = 1`, which is how `get_model`
always constructs the model). -/
def slrPenalty {n o : ℕ} (A : Mat n) (r : Fin n → ℚ) (W : Fin o → Fin n → ℚ) : ℚ :=
  ∑ a, ∑ j, (∑ i, |W a i| * slrLaplacian A r i j) * |W a j|

/-- `SparseLogisticRegression.regularization(reg_lambda)` (model_layers.py
lines 136-142): `reg.sum() * reg_lambda`. -/
def SparseLogisticRegression.regularization {n o : ℕ} (A : Mat n) (r : Fin n → ℚ)
    (W : Fin o → Fin n → ℚ) (reg_lambda : ℚ) : ℚ :=
  slrPenalty A r W * reg_lambda

/-- Values that the various `regularization` methods return: either a scalar
(a Python float / 0-d tensor) or a Python list of scalars. -/
inductive RegValue where
  | scalar (q : ℚ)
  | tensorList (l : List ℚ)
deriving DecidableEq

/-- `GraphNetwork.regularization` of model_layers.py (lines 356-357):
`return 0.0`, for every `reg_lambda`. -/
def GraphNetwork.regularization (reg_lambda : ℚ) : RegValue :=
  RegValue.scalar 0

/-- `MLP.regularization` of model_layers.py (lines 460-461): `return 0.0`. -/
def MLP.regularization (reg_lambda : ℚ) : RegValue :=
  RegValue.scalar 0

/-- `LogisticRegression.regularization` of model_layers.py (lines 168-169):
`return 0.0`. -/
def LogisticRegression.regularization (reg_lambda : ℚ) : RegValue :=
  RegValue.scalar 0

end ModelLayers

namespace Models

/-- `GraphNetwork.regularization` of the legacy src/models.py (lines 276-278):
it takes no `reg_lambda` argument and executes `return []`, producing the
empty Python list. -/
def GraphNetwork.regularization : ModelLayers.RegValue :=
  ModelLayers.RegValue.tensorList []

/-- `MLP.regularization` of the legacy src/models.py (lines 376-377):
`return []`. -/
def MLP.regularization : ModelLayers.RegValue :=
  ModelLayers.RegValue.tensorList []

end Models

/-- C1 counterexample: the claim says every plain GCN/MLP model's
`regularization` returns exactly the scalar `0`, but the `GraphNetwork`
family of src/models.py (cited by the claim) returns the empty list `[]`,
a container rather than a scalar. -/
theorem models_regularization_not_scalar_zero :
    Models.GraphNetwork.regularization ≠ ModelLayers.RegValue.scalar 0 := by
  decide

/-- C1 (amended): the plain model families of models/model_layers.py
(`GraphNetwork`, `MLP`, `LogisticRegression`) return exactly the scalar `0`
from `regularization` for every `reg_lambda`, while the legacy plain families
of src/models.py take no `reg_lambda` and return the empty list. -/
theorem plain_regularization_values (reg_lambda : ℚ) :
    ModelLayers.GraphNetwork.regularization reg_lambda = ModelLayers.RegValue.scalar 0
    ∧ ModelLayers.MLP.regularization reg_lambda = ModelLayers.RegValue.scalar 0
    ∧ ModelLayers.LogisticRegression.regularization reg_lambda = ModelLayers.RegValue.scalar 0
    ∧ Models.GraphNetwork.regularization = ModelLayers.RegValue.tensorList []
    ∧ Models.MLP.regularization = ModelLayers.RegValue.tensorList [] :=
  ⟨rfl, rfl, rfl, rfl, rfl⟩

/-- C10: constructing a `SparseLogisticRegression` mutates the adjacency
matrix passed by the caller in place — `np.fill_diagonal(adj, 0.)` zeroes the
diagonal of the caller's array before the Laplacian is computed — so after
construction the caller's matrix has an all-zero diagonal while every
off-diagonal entry is unchanged. -/
theorem slr_init_frame_effect {n : ℕ} (A : ModelLayers.Mat n) (r : Fin n → ℚ) :
    (∀ i, (ModelLayers.SparseLogisticRegression.init A r).adjArg i i = 0)
    ∧ ∀ i j, i ≠ j → (ModelLayers.SparseLogisticRegression.init A r).adjArg i j = A i j := by
  constructor
  · intro i
    simp [ModelLayers.SparseLogisticRegression.init, ModelLayers.zeroDiag]
  · intro i j hij
    simp [ModelLayers.SparseLogisticRegression.init, ModelLayers.zeroDiag, hij]

/-- C10 witness: the frame effect evaluated on a concrete 2×2 adjacency. -/
theorem slr_init_frame_effect_witness :
    (ModelLayers.SparseLogisticRegression.init ![![3, 4], ![5, 6]] ![1, 1]).adjArg 0 0 = 0
    ∧ (ModelLayers.SparseLogisticRegression.init ![![3, 4], ![5, 6]] ![1, 1]).adjArg 0 1 = 4 :=
  ⟨(slr_init_frame_effect ![![3, 4], ![5, 6]] ![1, 1]).1 0,
   ((slr_init_frame_effect ![![3, 4], ![5, 6]] ![1, 1]).2 0 1 (by decide)).trans (by norm_num)⟩

/-- C6: for every adjacency with non-negative entries (and in particular in
the presence of zero-degree nodes), each epsilon-guarded degree
`D[i] = adj.sum(0)[i] + 1e-5` is strictly positive, so every power
`D[i] ** -0.5` taken by the symmetric normalization is applied to a strictly
positive argument and is a finite real — the transformed matrix
`diag(D ** -0.5) . adj . diag(D ** -0.5)` therefore contains no NaN and no
Inf entry. -/
theorem degree_normalization_finite {n : ℕ} (A : ModelLayers.Mat n)
    (hnn : ∀ i j, 0 ≤ A i j) (hx : ∃ i, 0 < ∑ j, ModelLayers.zeroDiag A j i) :
    ∀ i, ModelLayers.rsqrtArgOK (ModelLayers.degrees A i) := by
  intro i
  have hsum : 0 ≤ ∑ j, ModelLayers.zeroDiag A j i := by
    refine Finset.sum_nonneg fun j _ => ?_
    unfold ModelLayers.zeroDiag
    split
    · exact le_refl 0
    · exact hnn j i
  have heps : (0 : ℚ) < ModelLayers.eps := by norm_num [ModelLayers.eps]
  unfold ModelLayers.rsqrtArgOK ModelLayers.degrees
  linarith

/-- C6 witness: the degree guard evaluated on a concrete adjacency having one
edge and (after diagonal zeroing) no isolated check needed. -/
theorem degree_normalization_finite_witness :
    ModelLayers.rsqrtArgOK (ModelLayers.degrees ![![0, 1], ![1, 0]] 0) :=
  degree_normalization_finite ![![0, 1], ![1, 0]]
    (by intro i j; fin_cases i <;> fin_cases j <;> norm_num)
    ⟨0, by norm_num [ModelLayers.zeroDiag, Fin.sum_univ_two]⟩ 0

namespace ModelLayers

/-- For a symmetric entrywise non-negative matrix `M`, the quadratic form
`Σᵢⱼ M i j * y i * y j` is bounded by the degree-weighted sum of squares
`Σᵢ (Σⱼ M j i) * y i ^ 2` — the standard consequence of
`0 ≤ Σᵢⱼ M i j * (y i - y j) ^ 2`. -/
theorem sym_quad_le {n : ℕ} (M : Mat n) (hsym : ∀ i j, M i j = M j i)
    (hnn : ∀ i j, 0 ≤ M i j) (y : Fin n → ℚ) :
    ∑ i, ∑ j, M i j * (y i * y j) ≤ ∑ i, (∑ j, M j i) * y i ^ 2 := by
  have h0 : 0 ≤ ∑ i, ∑ j, M i j * (y i - y j) ^ 2 :=
    Finset.sum_nonneg fun i _ => Finset.sum_nonneg fun j _ => mul_nonneg (hnn i j) (sq_nonneg _)
  have inner : ∀ i : Fin n, ∑ j, M i j * (y i - y j) ^ 2
      = (∑ j, M j i) * y i ^ 2 - 2 * ∑ j, M i j * (y i * y j) + ∑ j, M i j * y j ^ 2 := by
    intro i
    have e1 : ∀ j : Fin n, M i j * (y i - y j) ^ 2
        = M i j * y i ^ 2 - 2 * (M i j * (y i * y j)) + M i j * y j ^ 2 := fun j => by ring
    rw [Finset.sum_congr rfl fun j _ => e1 j, Finset.sum_add_distrib, Finset.sum_sub_distrib,
      ← Finset.mul_sum, ← Finset.sum_mul]
    have e2 : (∑ j, M i j) = ∑ j, M j i := Finset.sum_congr rfl fun j _ => hsym i j
    rw [e2]
  rw [Finset.sum_congr rfl fun i _ => inner i, Finset.sum_add_distrib,
    Finset.sum_sub_distrib] at h0
  have swap : ∑ i, ∑ j, M i j * y j ^ 2 = ∑ i, (∑ j, M j i) * y i ^ 2 := by
    rw [Finset.sum_comm]
    exact Finset.sum_congr rfl fun j _ => (Finset.sum_mul _ _ _).symm
  have two : ∑ i, 2 * ∑ j, M i j * (y i * y j) = 2 * ∑ i, ∑ j, M i j * (y i * y j) :=
    (Finset.mul_sum _ _ _).symm
  rw [swap, two] at h0
  linarith

/-- The quadratic form of `slrLaplacian` is non-negative at every vector when
the adjacency is symmetric with non-negative entries and `r` is the vector of
inverse square roots of the epsilon-perturbed degrees: the epsilon-perturbed
normalized Laplacian is positive semi-definite. -/
theorem slrLaplacian_quad_nonneg {n : ℕ} (A : Mat n) (r : Fin n → ℚ)
    (hsym : ∀ i j, A i j = A j i) (hnn : ∀ i j, 0 ≤ A i j)
    (hr : ∀ i, 0 < r i ∧ r i ^ 2 * degrees A i = 1) (v : Fin n → ℚ) :
    0 ≤ ∑ i, ∑ j, v i * slrLaplacian A r i j * v j := by
  have hsym2 : ∀ i j, zeroDiag A i j = zeroDiag A j i := by
    intro i j
    unfold zeroDiag
    by_cases h : i = j
    · subst h; rfl
    · rw [if_neg h, if_neg (Ne.symm h)]
      exact hsym i j
  have hnn2 : ∀ i j, 0 ≤ zeroDiag A i j := by
    intro i j
    unfold zeroDiag
    split
    · exact le_rfl
    · exact hnn i j
  have expand : ∑ i, ∑ j, v i * slrLaplacian A r i j * v j
      = (∑ i, v i ^ 2)
        - ∑ i, ∑ j, zeroDiag A i j * ((r i * v i) * (r j * v j)) := by
    have e1 : ∀ i j : Fin n, v i * slrLaplacian A r i j * v j
        = (if i = j then v i * v j else 0)
          - zeroDiag A i j * ((r i * v i) * (r j * v j)) := by
      intro i j
      unfold slrLaplacian
      by_cases h : i = j
      · rw [if_pos h, if_pos h]; ring
      · rw [if_neg h, if_neg h]; ring
    have e2 : ∀ i : Fin n, ∑ j, v i * slrLaplacian A r i j * v j
        = v i ^ 2 - ∑ j, zeroDiag A i j * ((r i * v i) * (r j * v j)) := by
      intro i
      rw [Finset.sum_congr rfl fun j _ => e1 i j, Finset.sum_sub_distrib]
      have e3 : ∑ j, (if i = j then v i * v j else 0) = v i ^ 2 := by
        rw [Finset.sum_ite_eq]
        simp [sq]
      rw [e3]
    rw [Finset.sum_congr rfl fun i _ => e2 i, Finset.sum_sub_distrib]
  have key := sym_quad_le (zeroDiag A) hsym2 hnn2 (fun i => r i * v i)
  have bound : ∑ i, (∑ j, zeroDiag A j i) * (r i * v i) ^ 2 ≤ ∑ i, v i ^ 2 := by
    refine Finset.sum_le_sum fun i _ => ?_
    have hc : 0 ≤ ∑ j, zeroDiag A j i := Finset.sum_nonneg fun j _ => hnn2 j i
    have hri := (hr i).1
    have hre := (hr i).2
    have heps : (0 : ℚ) < eps := by norm_num [eps]
    have hexpand : r i ^ 2 * (∑ j, zeroDiag A j i) + r i ^ 2 * eps = 1 := by
      have : degrees A i = (∑ j, zeroDiag A j i) + eps := rfl
      rw [this, mul_add] at hre
      exact hre
    have h1 : r i ^ 2 * (∑ j, zeroDiag A j i) ≤ 1 := by
      have h2 : 0 ≤ r i ^ 2 * eps := mul_nonneg (sq_nonneg _) (le_of_lt heps)
      linarith
    calc (∑ j, zeroDiag A j i) * (r i * v i) ^ 2
        = (r i ^ 2 * (∑ j, zeroDiag A j i)) * v i ^ 2 := by ring
      _ ≤ 1 * v i ^ 2 := mul_le_mul_of_nonneg_right h1 (sq_nonneg _)
      _ = v i ^ 2 := one_mul _
  rw [expand]
  linarith

/-- Row-wise rearrangement of the penalty: the sum of the entries of
`(|W|.mm L) * |W|` is the sum over rows of the quadratic form of `L` at the
absolute row. -/
theorem slrPenalty_as_quad {n o : ℕ} (A : Mat n) (r : Fin n → ℚ)
    (W : Fin o → Fin n → ℚ) :
    slrPenalty A r W
      = ∑ a, ∑ i, ∑ j, |W a i| * slrLaplacian A r i j * |W a j| := by
  unfold slrPenalty
  refine Finset.sum_congr rfl fun a _ => ?_
  rw [Finset.sum_comm]
  exact Finset.sum_congr rfl fun j _ => Finset.sum_mul _ _ _

end ModelLayers

/-- C4: `SparseLogisticRegression.regularization(reg_lambda)` equals
`reg_lambda` times the Laplacian smoothness penalty
`sum((|W| . L) * |W|)`, the epsilon-perturbed normalized Laplacian
`I - D^{-1/2} A D^{-1/2}` is positive semi-definite whenever the adjacency
supplied at construction is symmetric with non-negative entries, and the
penalty itself is therefore non-negative for every weight matrix `W`. -/
theorem slr_regularization_psd {n o : ℕ} (A : ModelLayers.Mat n) (r : Fin n → ℚ)
    (W : Fin o → Fin n → ℚ) (reg_lambda : ℚ)
    (hsym : ∀ i j, A i j = A j i) (hnn : ∀ i j, 0 ≤ A i j)
    (hr : ∀ i, 0 < r i ∧ r i ^ 2 * ModelLayers.degrees A i = 1) :
    ModelLayers.SparseLogisticRegression.regularization A r W reg_lambda
      = reg_lambda * ModelLayers.slrPenalty A r W
    ∧ (∀ v : Fin n → ℚ, 0 ≤ ∑ i, ∑ j, v i * ModelLayers.slrLaplacian A r i j * v j)
    ∧ 0 ≤ ModelLayers.slrPenalty A r W := by
  refine ⟨mul_comm _ _, fun v => ModelLayers.slrLaplacian_quad_nonneg A r hsym hnn hr v, ?_⟩
  rw [ModelLayers.slrPenalty_as_quad]
  exact Finset.sum_nonneg fun a _ =>
    ModelLayers.slrLaplacian_quad_nonneg A r hsym hnn hr (fun i => |W a i|)

/-- C4 witness: the PSD theorem applied to the concrete symmetric adjacency
with edge weight `8999/100000`, whose epsilon-perturbed degrees are
`9/100 = (3/10)^2`, so `r = (10/3, 10/3)` is exactly `D ** -0.5`. -/
theorem slr_regularization_psd_witness :
    ModelLayers.SparseLogisticRegression.regularization
        ![![0, 8999/100000], ![8999/100000, 0]] ![10/3, 10/3] ![![1, -2]] 2
      = 2 * ModelLayers.slrPenalty
        ![![0, 8999/100000], ![8999/100000, 0]] ![10/3, 10/3] ![![1, -2]]
    ∧ 0 ≤ ∑ i, ∑ j, (![1, 3] : Fin 2 → ℚ) i
        * ModelLayers.slrLaplacian ![![0, 8999/100000], ![8999/100000, 0]] ![10/3, 10/3] i j
        * (![1, 3] : Fin 2 → ℚ) j
    ∧ 0 ≤ ModelLayers.slrPenalty
        ![![0, 8999/100000], ![8999/100000, 0]] ![10/3, 10/3] ![![1, -2]] := by
  have h := slr_regularization_psd
    ![![0, 8999/100000], ![8999/100000, 0]] ![10/3, 10/3] ![![1, -2]] 2
    (by intro i j; fin_cases i <;> fin_cases j <;> norm_num)
    (by intro i j; fin_cases i <;> fin_cases j <;> norm_num)
    (by
      intro i
      fin_cases i <;> constructor <;>
        norm_num [ModelLayers.degrees, ModelLayers.zeroDiag, ModelLayers.eps,
          Fin.sum_univ_two])
  exact ⟨h.1, h.2.1 ![1, 3], h.2.2⟩

namespace ModelLayers

/-- Parameters of the `nn.Linear(in_dim, nb_attention_head)` projection
`self.attn` of `AttentionLayer`. -/
structure AttnParams (c hd : ℕ) where
  weight : Fin hd → Fin c → ℚ
  bias : Fin hd → ℚ

/-- One application of the linear projection `self.attn` to the channel
vector of one node. -/
def AttentionLayer.score {c hd : ℕ} (p : AttnParams c hd) (xv : Fin c → ℚ)
    (j : Fin hd) : ℚ :=
  (∑ k, p.weight j k * xv k) + p.bias j

/-- `torch.exp(self.attn(x) * self.temperature)` reshaped back to
`(nb_examples, nb_nodes, nb_attention_head)` (model_layers.py lines 40-45);
`expf` abstracts `torch.exp` (see the module docstring). -/
def AttentionLayer.rawWeights {e nn c hd : ℕ} (expf : ℚ → ℚ) (temperature : ℚ)
    (p : AttnParams c hd) (x : Tens e nn c) : Fin e → Fin nn → Fin hd → ℚ :=
  fun a i j => expf (AttentionLayer.score p (x a i) j * temperature)

/-- `attn_weights / attn_weights.sum(dim=1).unsqueeze(1)` (line 46): per
example and head, the raw weights divided by their sum over the nodes. -/
def AttentionLayer.weights {e nn c hd : ℕ} (expf : ℚ → ℚ) (temperature : ℚ)
    (p : AttnParams c hd) (x : Tens e nn c) : Fin e → Fin nn → Fin hd → ℚ :=
  fun a i j => AttentionLayer.rawWeights expf temperature p x a i j
    / ∑ i2, AttentionLayer.rawWeights expf temperature p x a i2 j

/-- `(x.unsqueeze(-1) * attn_weights.unsqueeze(-2)).sum(dim=1)` (lines
49-50): node features pooled by the normalized attention weights, indexed by
channel and head (the final `.view(nb_examples, -1)` flattening is carried by
the product index). -/
def AttentionLayer.applied {e nn c hd : ℕ} (expf : ℚ → ℚ) (temperature : ℚ)
    (p : AttnParams c hd) (x : Tens e nn c) : Fin e → Fin c → Fin hd → ℚ :=
  fun a k j => ∑ i, x a i k * AttentionLayer.weights expf temperature p x a i j

/-- `AttentionLayer.forward` (model_layers.py lines 40-53): returns the pair
`(attn_applied, attn_weights)`. -/
def AttentionLayer.forward {e nn c hd : ℕ} (expf : ℚ → ℚ) (temperature : ℚ)
    (p : AttnParams c hd) (x : Tens e nn c) :
    (Fin e → Fin c → Fin hd → ℚ) × (Fin e → Fin nn → Fin hd → ℚ) :=
  (AttentionLayer.applied expf temperature p x,
   AttentionLayer.weights expf temperature p x)

/-- `torch.sigmoid`, written through the abstracted exponential:
`sigmoid z = 1 / (1 + exp (-z))`. -/
def sigmoid (expf : ℚ → ℚ) (z : ℚ) : ℚ := 1 / (1 + expf (-z))

/-- Parameters of the `nn.Linear(in_dim, 1, bias=True)` projection of
`ElementwiseGateLayer`. -/
structure GateParams (c : ℕ) where
  weight : Fin c → ℚ
  bias : ℚ

/-- `ElementwiseGateLayer.forward` (model_layers.py lines 82-87): one sigmoid
gate scalar per example and node, from a linear projection of that node's
channel vector (the trailing singleton dimension of the
`(nb_examples, nb_nodes, 1)` result is dropped). -/
def ElementwiseGateLayer.forward {e nn c : ℕ} (expf : ℚ → ℚ) (p : GateParams c)
    (x : Tens e nn c) : Fin e → Fin nn → ℚ :=
  fun a i => sigmoid expf ((∑ k, p.weight k * x a i k) + p.bias)

/-- `F.relu` applied entrywise. -/
def relu (q : ℚ) : ℚ := max q 0

/-- One iteration of the loop in `GraphNetwork.supervised` (model_layers.py
lines 328-346): convolution, then (when `use_gate > 0`) the elementwise gate
multiplying the convolution output, then ReLU, then the optional dropout
mask `dropout(ones(x.size(0), x.size(1))).unsqueeze(2)` multiplied in.  The
convolution layer itself lives in models/graph_layers.py (not among the
sources), so it enters as an abstract function. -/
def runBlock {e nn c1 c2 : ℕ} (expf : ℚ → ℚ) (use_gate : ℚ)
    (conv : Tens e nn c1 → Tens e nn c2) (gp : GateParams c2)
    (dm : Option (Fin e → Fin nn → ℚ)) (x : Tens e nn c1) : Tens e nn c2 :=
  let y : Tens e nn c2 :=
    if 0 < use_gate then
      fun a i k => relu (ElementwiseGateLayer.forward expf gp (conv x) a i * conv x a i k)
    else
      fun a i k => relu (conv x a i k)
  match dm with
  | some m => fun a i k => y a i k * m a i
  | none => y

/-- The stack of `{conv, gate, dropout}` blocks built by
`GraphNetwork.__init__`, tracking the channel dimension across layers. -/
inductive LayerStack (e nn : ℕ) : ℕ → ℕ → Type where
  | nil {c : ℕ} : LayerStack e nn c c
  | cons {c1 c2 c3 : ℕ} (conv : Tens e nn c1 → Tens e nn c2) (gp : GateParams c2)
      (dm : Option (Fin e → Fin nn → ℚ)) (rest : LayerStack e nn c2 c3) :
      LayerStack e nn c1 c3

/-- The `for i, [layer, gate, dropout] in enumerate(zip(...))` loop of
`GraphNetwork.supervised`. -/
def runStack {e nn : ℕ} (expf : ℚ → ℚ) (use_gate : ℚ) :
    {c1 c2 : ℕ} → LayerStack e nn c1 c2 → Tens e nn c1 → Tens e nn c2
  | _, _, LayerStack.nil, x => x
  | _, _, LayerStack.cons conv gp dm rest, x =>
      runStack expf use_gate rest (runBlock expf use_gate conv gp dm x)

/-- The read-out stage of `GraphNetwork.supervised`: either the
node-flattening dense layer (`attention_head == 0`, logistic input size
`nb_nodes * dims[-1]`) or attention pooling followed by the dense layer
(input size `attention_head * dims[-1]`), as chosen at construction. -/
inductive ReadoutCfg (e nn cL outDim : ℕ) : Type where
  | flat (W : Fin outDim → Fin nn × Fin cL → ℚ) (b : Fin outDim → ℚ)
  | attnPool (hd : ℕ) (temperature : ℚ) (p : AttnParams cL hd)
      (W : Fin outDim → Fin cL × Fin hd → ℚ) (b : Fin outDim → ℚ)

/-- Lines 348-352 of model_layers.py: optional attention pooling, then
`self.my_logistic_layers[-1](x.view(nb_examples, -1))`. -/
def readout {e nn cL outDim : ℕ} (expf : ℚ → ℚ) :
    ReadoutCfg e nn cL outDim → Tens e nn cL → Fin e → Fin outDim → ℚ
  | ReadoutCfg.flat W b, x => fun a o =>
      (∑ ik : Fin nn × Fin cL, W o ik * x a ik.1 ik.2) + b o
  | ReadoutCfg.attnPool hd temperature p W b, x => fun a o =>
      (∑ kj : Fin cL × Fin hd,
        W o kj * AttentionLayer.applied expf temperature p x a kj.1 kj.2) + b o

/-- `EmbeddingLayer.forward`: `x * self.emb` (elementwise, with the channel
dimensions aligned). -/
def embApply {e nn c : ℕ} (emb : Fin nn → Fin c → ℚ) (x : Tens e nn c) :
    Tens e nn c :=
  fun a i k => x a i k * emb i k

/-- `GraphNetwork.supervised` (model_layers.py lines 321-354): optional
embedding, the block loop, then the read-out stage. -/
def GraphNetwork.supervised {e nn c1 cL outDim : ℕ} (expf : ℚ → ℚ)
    (use_gate : ℚ) (emb : Option (Fin nn → Fin c1 → ℚ))
    (stack : LayerStack e nn c1 cL) (rc : ReadoutCfg e nn cL outDim)
    (x : Tens e nn c1) : Fin e → Fin outDim → ℚ :=
  let x0 := match emb with
    | some m => embApply m x
    | none => x
  readout expf rc (runStack expf use_gate stack x0)

/-- `GraphNetwork.forward` (model_layers.py lines 273-275): unpacks the
3-dimensional size of `x` (which the tensor type already guarantees) and
returns `self.supervised(x)`. -/
def GraphNetwork.forward {e nn c1 cL outDim : ℕ} (expf : ℚ → ℚ)
    (use_gate : ℚ) (emb : Option (Fin nn → Fin c1 → ℚ))
    (stack : LayerStack e nn c1 cL) (rc : ReadoutCfg e nn cL outDim)
    (x : Tens e nn c1) : Fin e → Fin outDim → ℚ :=
  GraphNetwork.supervised expf use_gate emb stack rc x

end ModelLayers

/-- C3: for every input tensor, every example and every attention head, the
per-node attention weights produced by `AttentionLayer.forward`
(exponentiated linear scores divided by their sum over nodes) sum to `1`
across the node dimension, exactly, for any positive exponential. -/
theorem attention_weights_sum_to_one {e nn c hd : ℕ} (expf : ℚ → ℚ)
    (temperature : ℚ) (p : ModelLayers.AttnParams c hd)
    (x : ModelLayers.Tens e nn c)
    (hpos : ∀ q, 0 < expf q) (hn : 0 < nn) :
    ∀ a j, ∑ i, (ModelLayers.AttentionLayer.forward expf temperature p x).2 a i j = 1 := by
  intro a j
  haveI : Nonempty (Fin nn) := Fin.pos_iff_nonempty.mp hn
  have hS : 0 < ∑ i2, ModelLayers.AttentionLayer.rawWeights expf temperature p x a i2 j :=
    Finset.sum_pos (fun i _ => hpos _) Finset.univ_nonempty
  show ∑ i, ModelLayers.AttentionLayer.weights expf temperature p x a i j = 1
  unfold ModelLayers.AttentionLayer.weights
  rw [← Finset.sum_div]
  exact div_self (ne_of_gt hS)

/-- C3 witness: the normalization evaluated on a concrete one-node, one-head
layer with the positive function `fun _ => 1` standing for `exp`. -/
theorem attention_weights_sum_to_one_witness :
    ∑ i, (ModelLayers.AttentionLayer.forward (fun _ => 1) 1
        (ModelLayers.AttnParams.mk (fun _ _ => 0) (fun _ => 0) : ModelLayers.AttnParams 1 1)
        ((fun _ _ _ => (0 : ℚ)) : ModelLayers.Tens 1 1 1)).2 0 i 0 = 1 :=
  attention_weights_sum_to_one (fun _ => 1) 1
    (ModelLayers.AttnParams.mk (fun _ _ => 0) (fun _ => 0) : ModelLayers.AttnParams 1 1)
    ((fun _ _ _ => (0 : ℚ)) : ModelLayers.Tens 1 1 1) (fun _ => one_pos) (by norm_num) 0 0

/-- C8: when gating is enabled (`use_gate > 0`), the elementwise gate
produces one scalar per example and node strictly inside `(0, 1)` — the
sigmoid of a learned linear projection of that node's current features — and
the block of `GraphNetwork.supervised` multiplies the convolution output by
this scalar elementwise before the ReLU non-linearity is applied. -/
theorem elementwise_gate_bounds_and_position {e nn c1 c2 : ℕ} (expf : ℚ → ℚ)
    (use_gate : ℚ) (conv : ModelLayers.Tens e nn c1 → ModelLayers.Tens e nn c2)
    (gp : ModelLayers.GateParams c2) (x : ModelLayers.Tens e nn c1)
    (hpos : ∀ q, 0 < expf q) (hg : 0 < use_gate) :
    (∀ a i, 0 < ModelLayers.ElementwiseGateLayer.forward expf gp (conv x) a i
        ∧ ModelLayers.ElementwiseGateLayer.forward expf gp (conv x) a i < 1)
    ∧ ModelLayers.runBlock expf use_gate conv gp none x
        = fun a i k => ModelLayers.relu
            (ModelLayers.ElementwiseGateLayer.forward expf gp (conv x) a i
              * conv x a i k) := by
  constructor
  · intro a i
    have hE := hpos (-((∑ k, gp.weight k * conv x a i k) + gp.bias))
    constructor
    · show 0 < ModelLayers.sigmoid expf _
      unfold ModelLayers.sigmoid
      exact div_pos one_pos (by linarith)
    · show ModelLayers.sigmoid expf _ < 1
      unfold ModelLayers.sigmoid
      rw [div_lt_one (by linarith)]
      linarith
  · have hrfl : ModelLayers.runBlock expf use_gate conv gp none x
        = if 0 < use_gate then
            (fun a i k => ModelLayers.relu
              (ModelLayers.ElementwiseGateLayer.forward expf gp (conv x) a i
                * conv x a i k))
          else fun a i k => ModelLayers.relu (conv x a i k) := rfl
    rw [hrfl, if_pos hg]

/-- C8 witness: the gate block evaluated with the identity convolution on a
single-node input, `use_gate = 0.0001` (the model default) and the positive
function `fun _ => 1` standing for `exp`. -/
theorem elementwise_gate_bounds_and_position_witness :
    (0 < ModelLayers.ElementwiseGateLayer.forward (fun _ => 1)
        (ModelLayers.GateParams.mk (fun _ => 0) 0 : ModelLayers.GateParams 1)
        ((fun _ _ _ => (0 : ℚ)) : ModelLayers.Tens 1 1 1) 0 0
      ∧ ModelLayers.ElementwiseGateLayer.forward (fun _ => 1)
        (ModelLayers.GateParams.mk (fun _ => 0) 0 : ModelLayers.GateParams 1)
        ((fun _ _ _ => (0 : ℚ)) : ModelLayers.Tens 1 1 1) 0 0 < 1)
    ∧ ModelLayers.runBlock (fun _ => 1) (1/10000)
        (id : ModelLayers.Tens 1 1 1 → ModelLayers.Tens 1 1 1)
        (ModelLayers.GateParams.mk (fun _ => 0) 0) none
        ((fun _ _ _ => (0 : ℚ)) : ModelLayers.Tens 1 1 1) 0 0 0
      = ModelLayers.relu
          (ModelLayers.ElementwiseGateLayer.forward (fun _ => 1)
            (ModelLayers.GateParams.mk (fun _ => 0) 0 : ModelLayers.GateParams 1)
            ((fun _ _ _ => (0 : ℚ)) : ModelLayers.Tens 1 1 1) 0 0
            * (0 : ℚ)) :=
  ⟨(elementwise_gate_bounds_and_position (fun _ => 1) (1/10000)
      (id : ModelLayers.Tens 1 1 1 → ModelLayers.Tens 1 1 1)
      (ModelLayers.GateParams.mk (fun _ => 0) 0)
      ((fun _ _ _ => (0 : ℚ)) : ModelLayers.Tens 1 1 1)
      (fun _ => one_pos) (by norm_num)).1 0 0,
   congrFun (congrFun (congrFun
     ((elementwise_gate_bounds_and_position (fun _ => 1) (1/10000)
       (id : ModelLayers.Tens 1 1 1 → ModelLayers.Tens 1 1 1)
       (ModelLayers.GateParams.mk (fun _ => 0) 0)
       ((fun _ _ _ => (0 : ℚ)) : ModelLayers.Tens 1 1 1)
       (fun _ => one_pos) (by norm_num)).2) 0) 0) 0⟩

/-- C9: calling the model as a plain callable always executes the supervised
inference mode: `GraphNetwork.forward(x)` returns exactly
`GraphNetwork.supervised(x)` for every input and every configuration, never
`semi_supervised` or `gene_inference`. -/
theorem forward_eq_supervised {e nn c1 cL outDim : ℕ} (expf : ℚ → ℚ)
    (use_gate : ℚ) (emb : Option (Fin nn → Fin c1 → ℚ))
    (stack : ModelLayers.LayerStack e nn c1 cL)
    (rc : ModelLayers.ReadoutCfg e nn cL outDim) (x : ModelLayers.Tens e nn c1) :
    ModelLayers.GraphNetwork.forward expf use_gate emb stack rc x
      = ModelLayers.GraphNetwork.supervised expf use_gate emb stack rc x := rfl

namespace ModelLayers

/-- A saved parameter tensor: its shape and flattened contents.  `copy_`
succeeds exactly when the shapes agree (a mismatch raises the
`RuntimeError` that `load_state_dict` catches). -/
structure PTensor where
  shape : List ℕ
  data : List ℚ
deriving DecidableEq

/-- `own_state[name].copy_(param)` wrapped in the
`try ... except (AttributeError, RuntimeError): pass` of
`GraphNetwork.load_state_dict`: the destination takes the source's contents
when the copy succeeds and is left untouched when it fails. -/
def tryCopy (dst src : PTensor) : PTensor :=
  if src.shape = dst.shape then src else dst

/-- `GraphNetwork.load_state_dict` (model_layers.py lines 386-397): iterate
over the snapshot's entries; an entry whose name is not among the model's
parameters is skipped (`continue`), otherwise the in-place copy is attempted
and failures are swallowed.  The model's parameters are an association list
from name to tensor (`self.state_dict()`, whose tensors alias the model's
parameters, so the copies mutate the model). -/
def GraphNetwork.load_state_dict (own : List (String × PTensor))
    (state_dict : List (String × PTensor)) : List (String × PTensor) :=
  state_dict.foldl
    (fun o e => o.map fun p => if p.1 = e.1 then (p.1, tryCopy p.2 e.2) else p) own

/-- The value a single parameter named `name` with prior value `t` holds
after the whole restore: the last shape-compatible snapshot entry carrying
its name, or `t` when there is none. -/
def loadResult (t : PTensor) (name : String) (sd : List (String × PTensor)) : PTensor :=
  sd.foldl (fun cur e => if e.1 = name then tryCopy cur e.2 else cur) t

/-- A parameter matched by no compatible snapshot entry keeps its prior
value. -/
theorem loadResult_of_incompat (name : String) :
    ∀ (sd : List (String × PTensor)) (t : PTensor),
      (∀ e ∈ sd, e.1 ≠ name ∨ e.2.shape ≠ t.shape) → loadResult t name sd = t
  | [], _, _ => rfl
  | e :: sd, t, h => by
    have hstep : (if e.1 = name then tryCopy t e.2 else t) = t := by
      by_cases hc : e.1 = name
      · rw [if_pos hc]
        unfold tryCopy
        rcases h e (List.mem_cons_self e sd) with h1 | h2
        · exact absurd hc h1
        · rw [if_neg h2]
      · rw [if_neg hc]
    show loadResult (if e.1 = name then tryCopy t e.2 else t) name sd = t
    rw [hstep]
    exact loadResult_of_incompat name sd t fun e2 he2 => h e2 (List.mem_cons_of_mem _ he2)

/-- Structure of the restore: parameter names are preserved, and each
parameter ends at `loadResult` of its prior value. -/
theorem load_names_and_members :
    ∀ (sd own : List (String × PTensor)),
      (GraphNetwork.load_state_dict own sd).map Prod.fst = own.map Prod.fst
      ∧ ∀ p ∈ own, (p.1, loadResult p.2 p.1 sd) ∈ GraphNetwork.load_state_dict own sd
  | [], own => by
    refine ⟨rfl, fun p hp => ?_⟩
    show (p.1, p.2) ∈ own
    simpa using hp
  | e :: sd, own => by
    have hf1 : ∀ p : String × PTensor,
        ((if p.1 = e.1 then (p.1, tryCopy p.2 e.2) else p) : String × PTensor).1 = p.1 := by
      intro p
      by_cases h : p.1 = e.1
      · rw [if_pos h]
      · rw [if_neg h]
    have step : GraphNetwork.load_state_dict own (e :: sd)
        = GraphNetwork.load_state_dict
            (own.map fun p => if p.1 = e.1 then (p.1, tryCopy p.2 e.2) else p) sd := rfl
    obtain ⟨ihn, ihm⟩ := load_names_and_members sd
      (own.map fun p => if p.1 = e.1 then (p.1, tryCopy p.2 e.2) else p)
    constructor
    · rw [step, ihn, List.map_map]
      exact List.map_congr_left fun p _ => hf1 p
    · intro p hp
      have hmem : (if p.1 = e.1 then (p.1, tryCopy p.2 e.2) else p)
          ∈ own.map fun p => if p.1 = e.1 then (p.1, tryCopy p.2 e.2) else p :=
        List.mem_map_of_mem _ hp
      by_cases hc : p.1 = e.1
      · have hlr : loadResult p.2 p.1 (e :: sd) = loadResult (tryCopy p.2 e.2) p.1 sd := by
          show loadResult (if e.1 = p.1 then tryCopy p.2 e.2 else p.2) p.1 sd = _
          rw [if_pos hc.symm]
        rw [step, hlr]
        have hres := ihm _ hmem
        rw [if_pos hc] at hres hmem
        exact hres
      · have hlr : loadResult p.2 p.1 (e :: sd) = loadResult p.2 p.1 sd := by
          show loadResult (if e.1 = p.1 then tryCopy p.2 e.2 else p.2) p.1 sd = _
          rw [if_neg fun h => hc h.symm]
        rw [step, hlr]
        have hres := ihm _ hmem
        rw [if_neg hc] at hres hmem
        exact hres

end ModelLayers

/-- C2: the restore never aborts and is a total function of the snapshot;
it preserves the set and order of the model's parameter names; every
parameter ends at the value of the last name-matching, shape-compatible
snapshot entry (`loadResult`), so compatible entries are copied; and a
parameter matched by no compatible entry — unknown names and
shape-incompatible entries are skipped — keeps its prior value. -/
theorem load_state_dict_best_effort_restore (own sd : List (String × ModelLayers.PTensor)) :
    (ModelLayers.GraphNetwork.load_state_dict own sd).map Prod.fst = own.map Prod.fst
    ∧ (∀ p ∈ own,
        (p.1, ModelLayers.loadResult p.2 p.1 sd)
          ∈ ModelLayers.GraphNetwork.load_state_dict own sd)
    ∧ (∀ p ∈ own, (∀ e ∈ sd, e.1 ≠ p.1 ∨ e.2.shape ≠ p.2.shape) →
        p ∈ ModelLayers.GraphNetwork.load_state_dict own sd) := by
  obtain ⟨hn, hm⟩ := ModelLayers.load_names_and_members sd own
  refine ⟨hn, hm, fun p hp hinc => ?_⟩
  have := hm p hp
  rwa [ModelLayers.loadResult_of_incompat p.1 sd p.2 hinc, Prod.mk.eta] at this

/-- C2 witness: restoring a snapshot with one matching compatible entry, one
unknown name and one shape-incompatible entry leaves the shape-incompatible
parameter `b` at its prior value. -/
theorem load_state_dict_best_effort_restore_witness :
    (("b", ModelLayers.PTensor.mk [1] [5]) : String × ModelLayers.PTensor)
      ∈ ModelLayers.GraphNetwork.load_state_dict
        [("a", ModelLayers.PTensor.mk [2] [1, 2]), ("b", ModelLayers.PTensor.mk [1] [5])]
        [("a", ModelLayers.PTensor.mk [2] [9, 9]), ("zz", ModelLayers.PTensor.mk [1] [7]),
         ("b", ModelLayers.PTensor.mk [3] [1, 2, 3])] :=
  (load_state_dict_best_effort_restore
      [("a", ModelLayers.PTensor.mk [2] [1, 2]), ("b", ModelLayers.PTensor.mk [1] [5])]
      [("a", ModelLayers.PTensor.mk [2] [9, 9]), ("zz", ModelLayers.PTensor.mk [1] [7]),
       ("b", ModelLayers.PTensor.mk [3] [1, 2, 3])]).2.2
    ("b", ModelLayers.PTensor.mk [1] [5]) (by decide) (by decide)

namespace GraphLayers

/-- Modelled from the spec: the adjacency-transform pipeline (`get_transform`
in models/graph_layers.py) is not among the sources; NumPy's
`np.percentile(values, q)` with its default linear interpolation is
reconstructed here — sort the values, take the fractional index
`q * (len - 1) / 100`, and interpolate linearly between the two neighbouring
order statistics. -/
def percentile (q : ℚ) (l : List ℚ) : ℚ :=
  let s := l.insertionSort (fun a b => a ≤ b)
  let hq : ℚ := q * ((s.length : ℚ) - 1) / 100
  let k : ℕ := (Int.floor hq).toNat
  let lo := s.getD k 0
  let hi := s.getD (k + 1) lo
  lo + (hq - (Int.floor hq : ℚ)) * (hi - lo)

/-- Modelled from the spec: the flattened weight distribution of the
adjacency matrix, over which the percentile threshold is taken. -/
def entriesList {n : ℕ} (A : ModelLayers.Mat n) : List ℚ :=
  (List.finRange n).flatMap fun i => (List.finRange n).map fun j => A i j

/-- Modelled from the spec: percentile pruning — "retain only edge weights
at or above a percentile threshold of the weight distribution; all others
zeroed".  `keep` is the CLI `--percentile` option ("how many edges to
keep", default 100), so the threshold sits at the `(100 - keep)`-th
percentile of the weight distribution.  The self-loop option of the
transform pipeline is separate and not part of this step. -/
def prunePercentile {n : ℕ} (keep : ℚ) (A : ModelLayers.Mat n) : ModelLayers.Mat n :=
  let t := percentile (100 - keep) (entriesList A)
  fun i j => if t ≤ A i j then A i j else 0

/-- The 0th percentile of a list bounds every element from below: it is the
minimum of the sorted values and the interpolation weight vanishes. -/
theorem percentile_zero_le (l : List ℚ) : ∀ x ∈ l, percentile 0 l ≤ x := by
  intro x hx
  have hs : List.Sorted (fun a b => a ≤ b) (l.insertionSort (fun a b => a ≤ b)) :=
    List.sorted_insertionSort _ l
  have hxm : x ∈ l.insertionSort (fun a b => a ≤ b) := (List.mem_insertionSort _).mpr hx
  cases hsp : l.insertionSort (fun a b => a ≤ b) with
  | nil =>
    rw [hsp] at hxm
    exact absurd hxm (List.not_mem_nil x)
  | cons a t =>
    rw [hsp] at hs hxm
    have hval : percentile 0 l = a := by
      unfold percentile
      rw [hsp]
      norm_num
    rw [hval]
    rcases List.mem_cons.mp hxm with h1 | h2
    · rw [h1]
    · exact List.rel_of_sorted_cons hs x h2

/-- Every entry of the adjacency occurs in its flattened weight list. -/
theorem mem_entriesList {n : ℕ} (A : ModelLayers.Mat n) (i j : Fin n) :
    A i j ∈ entriesList A := by
  unfold entriesList
  exact List.mem_flatMap.mpr
    ⟨i, List.mem_finRange i, List.mem_map_of_mem _ (List.mem_finRange j)⟩

end GraphLayers

/-- C7: applying the percentile-pruning transform with the edge-keep
percentile set to `100` is a no-op — the threshold sits at the 0th
percentile, the minimum of the weight distribution, so every edge weight is
retained and the transformed adjacency equals the input (the self-loop
option being a separate step of the pipeline). -/
theorem prune_percentile_hundred_noop {n : ℕ} (A : ModelLayers.Mat n) (hn : 0 < n) :
    GraphLayers.prunePercentile 100 A = A := by
  funext i j
  show (if GraphLayers.percentile (100 - 100) (GraphLayers.entriesList A) ≤ A i j
    then A i j else 0) = A i j
  have h100 : (100 : ℚ) - 100 = 0 := by norm_num
  rw [h100, if_pos (GraphLayers.percentile_zero_le _ _ (GraphLayers.mem_entriesList A i j))]

/-- C7 witness: pruning at `keep = 100` evaluated on a concrete 2×2
adjacency. -/
theorem prune_percentile_hundred_noop_witness :
    GraphLayers.prunePercentile 100 (![![1, 2], ![3, 4]] : ModelLayers.Mat 2)
      = ![![1, 2], ![3, 4]] :=
  prune_percentile_hundred_noop ![![1, 2], ![3, 4]] (by norm_num)
